import Mathlib

/-!
Shallow embedding of the `ManualProjectCreate` form controller
(src/server/sonar-web/design-system/src/components/buttons/ButtonPrimary.tsx,
second document in the file) and proofs about its validation, submission and
asynchronous-completion behaviour.

Strings are modelled by Lean `String`; `undefined`-able string fields by
`Option String` (`none` = `undefined`).  Promise outcomes are modelled by
`Except Unit α` (`.ok` = resolution, `.error` = rejection).  Handlers become
pure functions from the previous state (plus the event payload) to the next
state together with the externally observable effect they trigger.
-/

namespace MPC

/-- The translate collaborator is specified as a pure message-catalog lookup
with no side effects; we model it as the identity on message keys, which keeps
distinct catalog keys distinct. -/
def translate (messageKey : String) : String := messageKey

/-- The component `State` record (interface `State` in the source). -/
structure State where
  projectName : String
  projectNameChanged : Bool
  projectNameError : Option String
  projectKey : String
  projectKeyError : Option String
  submitting : Bool
  touched : Bool
  validating : Bool
deriving DecidableEq, Repr

/-- The initial state built in the constructor: empty fields, all flags false,
no errors. -/
def initState : State :=
  { projectKey := ""
    projectName := ""
    projectNameChanged := false
    projectNameError := none
    projectKeyError := none
    submitting := false
    touched := false
    validating := false }

/-- JavaScript regex `\w`: ASCII letters, digits and underscore. -/
def isWordChar (c : Char) : Bool :=
  ('a' ≤ c && c ≤ 'z') || ('A' ≤ c && c ≤ 'Z') || ('0' ≤ c && c ≤ '9') || c == '_'

/-- The class `[a-zA-Z]` of the key pattern. -/
def isAsciiLetter (c : Char) : Bool :=
  ('a' ≤ c && c ≤ 'z') || ('A' ≤ c && c ≤ 'Z')

/-- The character class `[\w-.:]` of the key pattern (in a non-unicode
JavaScript regex the hyphen between `\w` and `.` is literal). -/
def isKeyChar (c : Char) : Bool :=
  isWordChar c || c == '-' || c == '.' || c == ':'

/-- One step of the Thompson NFA for `^[\w-.:]*[a-zA-Z]+[\w-.:]*$`.
State component 1: still inside the leading `[\w-.:]*`; component 2: the
mandatory `[a-zA-Z]` has been read (inside `[a-zA-Z]+[\w-.:]*`, whose suffix
language collapses to `[\w-.:]*` because letters are key characters). -/
def keyPatternStep (st : Bool × Bool) (c : Char) : Bool × Bool :=
  (st.1 && isKeyChar c, (st.2 && isKeyChar c) || (st.1 && isAsciiLetter c))

/-- Whether `/^[\w-.:]*[a-zA-Z]+[\w-.:]*$/.test s` holds: run the NFA over the
characters of `s` and accept in the second state. -/
def keyPatternTest (s : String) : Bool :=
  (s.data.foldl keyPatternStep (true, false)).2

/-- `validateKey` from the source: error when the key is longer than 400
characters or fails the regex test, no error otherwise. -/
def validateKey (projectKey : String) : Option String :=
  if decide (projectKey.length > 400) || !keyPatternTest projectKey then
    some (translate "onboarding.create_project.project_key.error")
  else
    none

/-- `validateName` from the source: error when the name is empty or longer
than 255 characters, no error otherwise. -/
def validateName (projectName : String) : Option String :=
  if projectName.length == 0 || decide (projectName.length > 255) then
    some (translate "onboarding.create_project.display_name.error")
  else
    none

/-- `canSubmit` from the source: both errors `undefined` and both fields
non-empty. -/
def canSubmit (s : State) : Bool :=
  s.projectKeyError.isNone && s.projectNameError.isNone &&
    decide (s.projectKey.length > 0) && decide (s.projectName.length > 0)

/-- The `disabled` prop of the submit control in `render`:
`!this.canSubmit(this.state) || submitting`. -/
def submitDisabled (s : State) : Bool :=
  !canSubmit s || s.submitting

/-- JavaScript `a || b` on strings: `a` unless `a` is the empty string
(falsy), in which case `b`. -/
def strFalsyOr (a b : String) : String :=
  if a == "" then b else a

/-- JavaScript `String.prototype.trim`: strip whitespace from both ends
(restricted to the ASCII whitespace relevant to project names). -/
def jsTrim (s : String) : String :=
  ⟨((s.data.dropWhile Char.isWhitespace).reverse.dropWhile Char.isWhitespace).reverse⟩

/-- The argument record of the `createProject` API call. -/
structure CreateProjectArgs where
  project : String
  name : String
deriving DecidableEq, Repr

/-- `handleFormSubmit` from the source: if `canSubmit` holds, set
`submitting := true` and issue a `createProject` call with the key and
`(projectName || projectKey).trim()`; otherwise do nothing.  The second
component is the call issued, if any. -/
def handleFormSubmit (s : State) : State × Option CreateProjectArgs :=
  if canSubmit s then
    ({ s with submitting := true },
      some { project := s.projectKey
             name := jsTrim (strFalsyOr s.projectName s.projectKey) })
  else
    (s, none)

/-- The name the specification says is sent on submit: the trimmed name,
falling back to the trimmed key when the name is empty after trimming
(definition follows the specification's words, for comparison with
`handleFormSubmit`). -/
def specSubmitName (s : State) : String :=
  if jsTrim s.projectName = "" then jsTrim s.projectKey else jsTrim s.projectName

/-- `handleProjectKeyChange` from the source: recompute the key error, mirror
the key into the name unless the name was manually edited, revalidate the
name, mark `touched`, and set `validating` exactly when the key is locally
valid.  The second component is the key passed to the (debounced)
`checkFreeKey`, when one is scheduled. -/
def handleProjectKeyChange (value : String) (s : State) : State × Option String :=
  let projectKey := value
  let projectKeyError := validateKey projectKey
  let projectName := if s.projectNameChanged then s.projectName else projectKey
  ({ s with
      projectKey := projectKey
      projectKeyError := projectKeyError
      projectName := projectName
      projectNameError := validateName projectName
      touched := true
      validating := projectKeyError.isNone },
    if projectKeyError.isNone then some projectKey else none)

/-- `handleProjectNameChange` from the source: store the name, mark it
manually changed, revalidate it. -/
def handleProjectNameChange (value : String) (s : State) : State :=
  { s with
      projectName := value
      projectNameChanged := true
      projectNameError := validateName value }

/-- Completion of a `checkFreeKey(key)` uniqueness check, from the source:
both the `then` and the `catch` continuation first test
`this.mounted && key === this.state.projectKey`; a resolved `true` (project
exists) sets the taken error (and `touched`), a resolved `false` or a
rejection clears the error; all three clear `validating`. -/
def checkFreeKeyDone (mounted : Bool) (key : String) (outcome : Except Unit Bool)
    (s : State) : State :=
  match outcome with
  | .ok alreadyExist =>
    if mounted && key == s.projectKey then
      if !alreadyExist then
        { s with projectKeyError := none, validating := false }
      else
        { s with
            projectKeyError := some (translate "onboarding.create_project.project_key.taken")
            touched := true
            validating := false }
    else
      s
  | .error _ =>
    if mounted && key == s.projectKey then
      { s with projectKeyError := none, validating := false }
    else
      s

/-- Completion of the `createProject` call inside `handleFormSubmit`, from the
source: on resolution, call `onProjectCreate([project.key])` (no mounted
check); on rejection, clear `submitting` when still mounted.  The second
component is the argument of the `onProjectCreate` callback, if invoked. -/
def createProjectDone (mounted : Bool) (outcome : Except Unit String)
    (s : State) : State × Option (List String) :=
  match outcome with
  | .ok createdKey => (s, some [createdKey])
  | .error _ => (if mounted then { s with submitting := false } else s, none)

/-- Modelled from the spec: lodash `debounce` (the constructor wraps
`checkFreeKey` in `debounce(·, 250)`) is external library code not under
`src/`.  Per the spec, debouncing "coalesces rapid repeated triggers into one
delayed action using the last input": of a timestamped sequence of calls to
the debounced function, a call fires exactly when no further call arrives
within `wait` ms of it, and the trailing call always eventually fires. -/
def debounceFires (wait : Nat) : List (Nat × String) → List (Nat × String)
  | [] => []
  | [e] => [e]
  | e :: f :: rest =>
    if e.1 + wait ≤ f.1 then e :: debounceFires wait (f :: rest)
    else debounceFires wait (f :: rest)

/-- The key-change events that actually call the debounced `checkFreeKey`: by
the guard at the end of `handleProjectKeyChange`, exactly those whose key
passes local validation. -/
def scheduledChecks (events : List (Nat × String)) : List (Nat × String) :=
  events.filter fun e => (validateKey e.2).isNone

/-- The remote uniqueness requests issued for a timestamped sequence of
key-change events: the debounced firings of the scheduled checks. -/
def issuedRequests (events : List (Nat × String)) : List (Nat × String) :=
  debounceFires 250 (scheduledChecks events)

/-! Helper lemmas. -/

theorem isAsciiLetter_isKeyChar (c : Char) :
    isAsciiLetter c = true → isKeyChar c = true := by
  simp only [isAsciiLetter, isKeyChar, isWordChar, Bool.or_eq_true]
  tauto

theorem keyPatternFold (l : List Char) : ∀ q0 q1 : Bool,
    l.foldl keyPatternStep (q0, q1) =
      (q0 && l.all isKeyChar,
        (q1 && l.all isKeyChar) || (q0 && (l.all isKeyChar && l.any isAsciiLetter))) := by
  induction l with
  | nil => intro q0 q1; simp
  | cons c l ih =>
    intro q0 q1
    have hcl := isAsciiLetter_isKeyChar c
    simp only [List.foldl_cons, keyPatternStep, List.all_cons, List.any_cons]
    rw [ih]
    cases hK : isKeyChar c <;> cases hL : isAsciiLetter c <;>
      cases q0 <;> cases q1 <;>
      cases hA : l.all isKeyChar <;> cases hB : l.any isAsciiLetter <;>
      simp_all

theorem keyPatternTest_iff (s : String) :
    keyPatternTest s = true ↔
      (∀ c ∈ s.data, isKeyChar c = true) ∧ ∃ c ∈ s.data, isAsciiLetter c = true := by
  rw [keyPatternTest, keyPatternFold]
  simp [List.all_eq_true, List.any_eq_true, and_comm]

theorem mem_of_getLastQ {α : Type} {l : List α} {x : α}
    (h : l.getLast? = some x) : x ∈ l := by
  induction l with
  | nil => simp at h
  | cons a rest ih =>
    cases rest with
    | nil => simp_all
    | cons b rest2 =>
      rw [List.getLast?_cons_cons] at h
      exact List.mem_cons_of_mem a (ih h)

theorem debounceFires_close (wait : Nat) (l : List (Nat × String))
    (h : ∀ e ∈ l, ∀ f ∈ l, f.1 < e.1 + wait) :
    debounceFires wait l = l.getLast?.toList := by
  induction l with
  | nil => simp [debounceFires]
  | cons e rest ih =>
    cases rest with
    | nil => simp [debounceFires]
    | cons f rest2 =>
      have hef : f.1 < e.1 + wait := h e (by simp) f (by simp)
      have hrest : ∀ a ∈ f :: rest2, ∀ b ∈ f :: rest2, b.1 < a.1 + wait :=
        fun a ha b hb =>
          h a (List.mem_cons_of_mem e ha) b (List.mem_cons_of_mem e hb)
      simp only [debounceFires]
      rw [if_neg (by omega), ih hrest, List.getLast?_cons_cons]

/-! Claim theorems. -/

/-- C1 (counterexample): the claim also says the submit control is enabled
exactly when `canSubmit` holds; in the state below `canSubmit` holds and yet
the control is disabled, because `render` disables it while `submitting`. -/
theorem submitDisabled_despite_canSubmit :
    canSubmit { initState with projectKey := "a", projectName := "a", submitting := true } = true ∧
    submitDisabled { initState with projectKey := "a", projectName := "a", submitting := true } = true := by
  decide

/-- C1 (amended): `canSubmit` returns true iff both error fields are
`undefined` and both text fields are non-empty; and the submit control is
enabled iff `canSubmit` holds and `submitting` is false — independent of the
`validating` flag. -/
theorem canSubmit_iff_and_enabled_iff (s : State) :
    (canSubmit s = true ↔
      s.projectKeyError = none ∧ s.projectNameError = none ∧
        0 < s.projectKey.length ∧ 0 < s.projectName.length) ∧
    (submitDisabled s = false ↔ canSubmit s = true ∧ s.submitting = false) := by
  constructor
  · simp [canSubmit, Option.isNone_iff_eq_none, and_assoc]
  · cases hcs : canSubmit s <;> cases hsub : s.submitting <;>
      simp [submitDisabled, hcs, hsub]

/-- C2: `validateKey` returns no error iff the string has length at most 400,
contains at least one ASCII letter, and consists only of word characters,
hyphens, dots and colons; every other string gets the key error message. -/
theorem validateKey_none_iff (s : String) :
    (validateKey s = none ↔
      s.length ≤ 400 ∧ (∃ c ∈ s.data, isAsciiLetter c = true) ∧
        ∀ c ∈ s.data, isKeyChar c = true) ∧
    (validateKey s = none ∨
      validateKey s = some (translate "onboarding.create_project.project_key.error")) := by
  constructor
  · rw [validateKey]
    split
    case isTrue h =>
      simp only [Bool.or_eq_true, decide_eq_true_iff, Bool.not_eq_true'] at h
      constructor
      · intro hc; exact absurd hc (by simp)
      · rintro ⟨h400, hletter, hclass⟩
        rcases h with h | h
        · omega
        · rw [Bool.eq_false_iff] at h
          exact absurd ((keyPatternTest_iff s).mpr ⟨hclass, hletter⟩) h
    case isFalse h =>
      simp only [Bool.or_eq_true, decide_eq_true_iff, Bool.not_eq_true', not_or] at h
      obtain ⟨h400, hacc⟩ := h
      have := (keyPatternTest_iff s).mp (by
        cases hkp : keyPatternTest s
        · exact absurd hkp hacc
        · rfl)
      exact ⟨fun _ => ⟨by omega, this.2, this.1⟩, fun _ => rfl⟩
  · rw [validateKey]; split <;> simp

/-- C3 (counterexample): in the state below (key `"a"`, name `" "`) the
submit-eligibility predicate holds, the code sends the empty string as the
name (it trims after the falsy-fallback, whose test the non-empty `" "`
passes), while the claim's rule — fall back to the trimmed key when the name
is empty after trimming — prescribes `"a"`. -/
theorem handleFormSubmit_name_differs_from_spec :
    canSubmit { initState with projectKey := "a", projectName := " " } = true ∧
    (handleFormSubmit { initState with projectKey := "a", projectName := " " }).2 =
      some { project := "a", name := "" } ∧
    specSubmitName { initState with projectKey := "a", projectName := " " } = "a" ∧
    ("" : String) ≠ "a" := by
  refine ⟨by decide, by decide, by decide, by decide⟩

/-- C3 (amended): when the form is submitted in a state satisfying the
submit-eligibility predicate, the handler sets `submitting` to true and calls
the remote creation API with the project key and the trimmed name; the
fallback to the key applies only to a name that is empty before trimming,
which the predicate rules out, so the name sent is always the trimmed name
(possibly the empty string). -/
theorem handleFormSubmit_eq (s : State) (h : canSubmit s = true) :
    handleFormSubmit s =
      ({ s with submitting := true },
        some { project := s.projectKey, name := jsTrim s.projectName }) := by
  have hn : s.projectName ≠ "" := by
    simp only [canSubmit, Bool.and_eq_true, decide_eq_true_iff] at h
    intro hc
    rw [hc] at h
    simp at h
  rw [handleFormSubmit, if_pos h, strFalsyOr, if_neg (by simpa using hn)]

/-- C3 witness. -/
theorem handleFormSubmit_eq_witness :
    handleFormSubmit { initState with projectKey := "k1", projectName := " nm " } =
      ({ initState with projectKey := "k1", projectName := " nm ", submitting := true },
        some { project := "k1", name := "nm" }) :=
  (handleFormSubmit_eq { initState with projectKey := "k1", projectName := " nm " }
      (by decide)).trans (by decide)

/-- C4: on a key-change event, if the name was never manually edited the name
field mirrors the new key and its error is the validation of the new key;
otherwise the name is the unchanged prior name and its error is recomputed
from that prior name. -/
theorem handleProjectKeyChange_name_mirror (value : String) (s : State) :
    (s.projectNameChanged = false →
      (handleProjectKeyChange value s).1.projectName = value ∧
      (handleProjectKeyChange value s).1.projectNameError = validateName value) ∧
    (s.projectNameChanged = true →
      (handleProjectKeyChange value s).1.projectName = s.projectName ∧
      (handleProjectKeyChange value s).1.projectNameError = validateName s.projectName) := by
  constructor <;> intro h <;> simp [handleProjectKeyChange, h]

/-- C4 witness. -/
theorem handleProjectKeyChange_name_mirror_witness :
    ((handleProjectKeyChange "abc" initState).1.projectName = "abc" ∧
      (handleProjectKeyChange "abc" initState).1.projectNameError = validateName "abc") ∧
    ((handleProjectKeyChange "x" { initState with projectNameChanged := true, projectName := "nm" }).1.projectName = "nm" ∧
      (handleProjectKeyChange "x" { initState with projectNameChanged := true, projectName := "nm" }).1.projectNameError = validateName "nm") :=
  ⟨(handleProjectKeyChange_name_mirror "abc" initState).1 rfl,
    (handleProjectKeyChange_name_mirror "x"
      { initState with projectNameChanged := true, projectName := "nm" }).2 rfl⟩

/-- C5: when a uniqueness check completes while the component is mounted and
the checked key equals the current key in state: a resolved "exists" sets the
taken message, a resolved "does not exist" and a rejection both clear the key
error; all three clear `validating`. -/
theorem checkFreeKeyDone_fresh (mounted : Bool) (key : String) (s : State)
    (hm : mounted = true) (hk : key = s.projectKey) :
    ((checkFreeKeyDone mounted key (.ok true) s).projectKeyError =
        some (translate "onboarding.create_project.project_key.taken") ∧
      (checkFreeKeyDone mounted key (.ok true) s).validating = false) ∧
    ((checkFreeKeyDone mounted key (.ok false) s).projectKeyError = none ∧
      (checkFreeKeyDone mounted key (.ok false) s).validating = false) ∧
    ((checkFreeKeyDone mounted key (.error ()) s).projectKeyError = none ∧
      (checkFreeKeyDone mounted key (.error ()) s).validating = false) := by
  subst hm hk
  simp [checkFreeKeyDone]

/-- C5 witness. -/
theorem checkFreeKeyDone_fresh_witness :
    ((checkFreeKeyDone true "" (.ok true) initState).projectKeyError =
        some (translate "onboarding.create_project.project_key.taken") ∧
      (checkFreeKeyDone true "" (.ok true) initState).validating = false) ∧
    ((checkFreeKeyDone true "" (.ok false) initState).projectKeyError = none ∧
      (checkFreeKeyDone true "" (.ok false) initState).validating = false) ∧
    ((checkFreeKeyDone true "" (.error ()) initState).projectKeyError = none ∧
      (checkFreeKeyDone true "" (.error ()) initState).validating = false) :=
  checkFreeKeyDone_fresh true "" initState rfl rfl

/-- C6: a uniqueness-check completion that arrives unmounted, or whose checked
key no longer equals the current key in state, leaves the state entirely
unchanged. -/
theorem checkFreeKeyDone_stale (mounted : Bool) (key : String)
    (outcome : Except Unit Bool) (s : State)
    (h : mounted = false ∨ key ≠ s.projectKey) :
    checkFreeKeyDone mounted key outcome s = s := by
  have hcond : (mounted && key == s.projectKey) = false := by
    rcases h with h | h
    · simp [h]
    · simp [h]
  cases outcome <;> simp [checkFreeKeyDone, hcond]

/-- C6 witness. -/
theorem checkFreeKeyDone_stale_witness :
    checkFreeKeyDone true "x" (.ok true) initState = initState :=
  checkFreeKeyDone_stale true "x" (.ok true) initState (Or.inr (by decide))

/-- C7: `validateName` returns no error iff the name has length between 1 and
255 inclusive; every other string gets the display-name error message. -/
theorem validateName_none_iff (s : String) :
    (validateName s = none ↔ 1 ≤ s.length ∧ s.length ≤ 255) ∧
    (validateName s = none ∨
      validateName s = some (translate "onboarding.create_project.display_name.error")) := by
  constructor
  · rw [validateName]
    split
    case isTrue h =>
      simp only [Bool.or_eq_true, beq_iff_eq, decide_eq_true_iff] at h
      constructor
      · intro hc; exact absurd hc (by simp)
      · intro hc; omega
    case isFalse h =>
      simp only [Bool.or_eq_true, beq_iff_eq, decide_eq_true_iff, not_or] at h
      exact ⟨fun _ => by omega, fun _ => rfl⟩
  · rw [validateName]; split <;> simp

/-- C8: when the project-creation call fails and the component is still
mounted, `submitting` is cleared and every other state field is left
unchanged (the result is exactly the old state with `submitting := false`),
and no callback is invoked. -/
theorem createProjectDone_failure_mounted (mounted : Bool) (s : State)
    (hm : mounted = true) :
    createProjectDone mounted (.error ()) s = ({ s with submitting := false }, none) := by
  subst hm
  simp [createProjectDone]

/-- C8 witness. -/
theorem createProjectDone_failure_mounted_witness :
    createProjectDone true (.error ()) { initState with submitting := true } =
      ({ initState with submitting := false }, none) :=
  (createProjectDone_failure_mounted true { initState with submitting := true } rfl).trans
    (by decide)

/-- C9 (counterexample): the two key edits below happen 10ms apart (well
within one 250ms window); exactly one uniqueness request is issued, but it
carries the key "abc" of the earlier edit — the last-entered key "123" fails
local validation and is never scheduled — contradicting the claim that the
one request uses the last-entered key value. -/
theorem issuedRequests_not_last_entered :
    (∀ e ∈ [((0 : Nat), "abc"), ((10 : Nat), "123")],
      ∀ f ∈ [((0 : Nat), "abc"), ((10 : Nat), "123")], f.1 < e.1 + 250) ∧
    issuedRequests [((0 : Nat), "abc"), ((10 : Nat), "123")] = [((0 : Nat), "abc")] ∧
    ("abc" : String) ≠ "123" := by
  decide

/-- C9 (amended): for any sequence of key-change events all lying within a
250ms window, at most one remote uniqueness request is issued; its key passed
local validation; and it is exactly the last scheduled (locally valid) event
of the sequence. -/
theorem issuedRequests_within_window (events : List (Nat × String))
    (hwin : ∀ e ∈ events, ∀ f ∈ events, f.1 < e.1 + 250) :
    (issuedRequests events).length ≤ 1 ∧
    (∀ r ∈ issuedRequests events, (validateKey r.2).isNone = true) ∧
    issuedRequests events = (scheduledChecks events).getLast?.toList := by
  have hsub : ∀ e ∈ scheduledChecks events, e ∈ events :=
    fun e he => List.mem_of_mem_filter he
  have heq : issuedRequests events = (scheduledChecks events).getLast?.toList :=
    debounceFires_close 250 _ (fun a ha b hb => hwin a (hsub a ha) b (hsub b hb))
  refine ⟨?_, ?_, heq⟩
  · rw [heq]; cases (scheduledChecks events).getLast? <;> simp
  · intro r hr
    rw [heq] at hr
    have hmem : r ∈ scheduledChecks events := by
      cases hgl : (scheduledChecks events).getLast? with
      | none => rw [hgl] at hr; simp at hr
      | some x =>
        rw [hgl] at hr
        simp only [Option.toList_some, List.mem_singleton] at hr
        subst hr
        exact mem_of_getLastQ hgl
    simp only [scheduledChecks, List.mem_filter] at hmem
    exact hmem.2

/-- C9 witness. -/
theorem issuedRequests_within_window_witness :
    (∀ e ∈ [((0 : Nat), "abc"), ((10 : Nat), "abcd")],
      ∀ f ∈ [((0 : Nat), "abc"), ((10 : Nat), "abcd")], f.1 < e.1 + 250) ∧
    (issuedRequests [((0 : Nat), "abc"), ((10 : Nat), "abcd")]).length ≤ 1 ∧
    issuedRequests [((0 : Nat), "abc"), ((10 : Nat), "abcd")] =
      (scheduledChecks [((0 : Nat), "abc"), ((10 : Nat), "abcd")]).getLast?.toList :=
  ⟨by decide,
    (issuedRequests_within_window [((0 : Nat), "abc"), ((10 : Nat), "abcd")] (by decide)).1,
    (issuedRequests_within_window [((0 : Nat), "abc"), ((10 : Nat), "abcd")] (by decide)).2.2⟩

/-- C10: a successful project creation invokes the parent callback with the
one-element list of the created key and leaves the state untouched, for both
values of the mounted flag — the liveness flag is consulted only on the
failure branch. -/
theorem createProjectDone_success_ignores_mounted (mounted : Bool)
    (createdKey : String) (s : State) :
    createProjectDone mounted (.ok createdKey) s = (s, some [createdKey]) := by
  simp [createProjectDone]

end MPC
